import Mathlib

/-!
Shallow embedding of the Unix-socket monitor in
src/unixsockmon/src/sockmonitor.rs.

Byte streams (the data flowing over a connection) are modelled as
List Nat, one entry per byte (each < 256 on every stream the code
produces).  Rust String values are represented by their UTF-8 bytes,
so a handler is a function List Nat -> Except String (List Nat), and
the framers return the received message as its byte list.  Fallible
operations return Except String, mirroring Result<_, std::io::Error>.
-/

namespace SockMon

/-- UTF-8 validity of a byte list, one byte at a time.  The first
argument is the list of (lo, hi) ranges still expected for the
continuation bytes of the scalar value currently being decoded; the
ranges follow the standard UTF-8 table (RFC 3629), which is what
Rust's std::str::from_utf8 and BufRead::read_line enforce. -/
def utf8ValidAux : List (Nat × Nat) → List Nat → Bool
  | [], [] => true
  | _ :: _, [] => false
  | (lo, hi) :: exp, b :: rest =>
    if lo ≤ b ∧ b ≤ hi then utf8ValidAux exp rest else false
  | [], b :: rest =>
    if b ≤ 0x7F then utf8ValidAux [] rest
    else if 0xC2 ≤ b ∧ b ≤ 0xDF then utf8ValidAux [(0x80, 0xBF)] rest
    else if b = 0xE0 then utf8ValidAux [(0xA0, 0xBF), (0x80, 0xBF)] rest
    else if 0xE1 ≤ b ∧ b ≤ 0xEC then utf8ValidAux [(0x80, 0xBF), (0x80, 0xBF)] rest
    else if b = 0xED then utf8ValidAux [(0x80, 0x9F), (0x80, 0xBF)] rest
    else if 0xEE ≤ b ∧ b ≤ 0xEF then utf8ValidAux [(0x80, 0xBF), (0x80, 0xBF)] rest
    else if b = 0xF0 then utf8ValidAux [(0x90, 0xBF), (0x80, 0xBF), (0x80, 0xBF)] rest
    else if 0xF1 ≤ b ∧ b ≤ 0xF3 then utf8ValidAux [(0x80, 0xBF), (0x80, 0xBF), (0x80, 0xBF)] rest
    else if b = 0xF4 then utf8ValidAux [(0x80, 0x8F), (0x80, 0xBF), (0x80, 0xBF)] rest
    else false

/-- A byte list is valid UTF-8 when decoding from the initial state
consumes it completely. -/
def utf8Valid (l : List Nat) : Bool := utf8ValidAux [] l

/-- UTF-8 bytes of an ASCII string literal (used for the response
sentinel "ERR" and for test inputs). -/
def asciiBytes (s : String) : List Nat := s.data.map Char.toNat

/-- The bytes BufRead::read_line consumes from the stream: everything
up to and including the first newline byte 10, or the whole stream if
it ends first (sockmonitor.rs line 88, reader.read_line). -/
def takeLine : List Nat → List Nat
  | [] => []
  | b :: rest => if b = 10 then [10] else b :: takeLine rest

/-- The newline strip of SockMonitor::read_line (lines 89-91):
if msg ends_with a newline, pop it. -/
def chomp (l : List Nat) : List Nat :=
  if l.getLast? = some 10 then l.dropLast else l

/-- SockMonitor::read_line (sockmonitor.rs lines 84-93) on an
in-memory stream: BufRead::read_line reads up to and including the
first newline (or to end-of-stream), fails when those bytes are not
valid UTF-8, and the trailing newline, when present, is popped. -/
def readLineWire (stream : List Nat) : Except String (List Nat) :=
  let chunk := takeLine stream
  if utf8Valid chunk then Except.ok (chomp chunk)
  else Except.error "stream did not contain valid UTF-8"

/-- u32::from_be_bytes (sockmonitor.rs line 102): big-endian value of
four bytes. -/
def fromBE4 (b0 b1 b2 b3 : Nat) : Nat :=
  b0 * 2 ^ 24 + b1 * 2 ^ 16 + b2 * 2 ^ 8 + b3

/-- (n as u32).to_be_bytes() (sockmonitor.rs line 191): the length is
first truncated to 32 bits by the as-cast, then split big-endian. -/
def toBE4 (n : Nat) : List Nat :=
  [n % 2 ^ 32 / 2 ^ 24, n % 2 ^ 32 / 2 ^ 16 % 2 ^ 8,
   n % 2 ^ 32 / 2 ^ 8 % 2 ^ 8, n % 2 ^ 32 % 2 ^ 8]

/-- SockMonitor::read_bytes (sockmonitor.rs lines 96-115) on an
in-memory stream: read_exact of a 4-byte big-endian length L, then
read_exact of L payload bytes (each read_exact fails when the stream
ends first), then str::from_utf8, whose failure is converted to an
io::Error with the message of line 111. -/
def readBytesWire (stream : List Nat) : Except String (List Nat) :=
  match stream with
  | b0 :: b1 :: b2 :: b3 :: rest =>
    let len := fromBE4 b0 b1 b2 b3
    if len ≤ rest.length then
      let payload := rest.take len
      if utf8Valid payload then Except.ok payload
      else Except.error "cannot convert bytes!"
    else Except.error "failed to fill whole buffer"
  | _ => Except.error "failed to fill whole buffer"

/-- The bytes SockMonitor::send_string writes (sockmonitor.rs lines
172-177): the message bytes, then a newline unless the message already
ends with one. -/
def sendStringWire (s : List Nat) : List Nat :=
  s ++ (if s.getLast? = some 10 then [] else [10])

/-- The bytes SockMonitor::send_bytes writes (sockmonitor.rs lines
189-196): the length as a 32-bit big-endian prefix (the length is cast
with as u32, hence reduced mod 2^32), followed by all message bytes. -/
def sendBytesWire (p : List Nat) : List Nat :=
  toBE4 p.length ++ p

/-- The client's read-to-response step (stream.read_to_string, lines
179 and 198): accumulate everything the server wrote before closing;
read_to_string fails when the bytes are not valid UTF-8. -/
def clientReadToEnd (resp : List Nat) : Except String (List Nat) :=
  if utf8Valid resp then Except.ok resp
  else Except.error "stream did not contain valid UTF-8"

/-- One item yielded by listener.incoming() (sockmonitor.rs line 133):
either a failed accept (the Err(e) arm, line 159) or an accepted
connection carrying the bytes the client will send on it. -/
inductive Incoming where
  | acceptErr : Incoming
  | conn : List Nat → Incoming
deriving DecidableEq

/-- Observable events of the serve loop, tagged with the index of the
incoming connection they belong to. -/
inductive Ev where
  | accept : Nat → Ev
  | acceptFail : Nat → Ev
  | readOk : Nat → List Nat → Ev
  | readErr : Nat → Ev
  | handle : Nat → List Nat → Ev
  | respond : Nat → List Nat → Ev
deriving DecidableEq

/-- The connection index an event belongs to. -/
def evIdx : Ev → Nat
  | .accept i => i
  | .acceptFail i => i
  | .readOk i _ => i
  | .readErr i => i
  | .handle i _ => i
  | .respond i _ => i

/-- The events the body of the accept loop (sockmonitor.rs lines
134-162) produces for the i-th incoming item: on accept failure, log
and continue; on an accepted connection, run the reader; on reader
failure, log and continue without responding (lines 139-142); else
invoke the handler and write either its result or the "ERR" sentinel
(lines 145-157). -/
def connTrace (reader : List Nat → Except String (List Nat))
    (handler : List Nat → Except String (List Nat))
    (i : Nat) : Incoming → List Ev
  | .acceptErr => [.acceptFail i]
  | .conn stream =>
    Ev.accept i ::
      match reader stream with
      | .error _ => [.readErr i]
      | .ok msg =>
        Ev.readOk i msg :: Ev.handle i msg ::
          match handler msg with
          | .error _ => [.respond i (asciiBytes "ERR")]
          | .ok r => [.respond i r]

/-- The event trace of the first n iterations of the accept loop of
SockMonitor::serve (sockmonitor.rs lines 133-163): the loop body runs
to completion on connection n before the next call to accept, so the
trace after n+1 iterations extends the trace after n by the events of
connection n.  listener.incoming() never ends, so the loop itself
never exits; inc gives the unbounded stream of incoming items. -/
def serveTraceN (reader handler : List Nat → Except String (List Nat))
    (inc : Nat → Incoming) : Nat → List Ev
  | 0 => []
  | n + 1 => serveTraceN reader handler inc n ++ connTrace reader handler n (inc n)

/-- The pre-loop part of SockMonitor::serve (sockmonitor.rs lines
124-130): if fs::metadata succeeds (a file exists at the socket path),
fs::remove_file runs first and its failure is propagated by the
question-mark operator; then UnixListener::bind runs and its failure
is propagated.  The environment outcomes are passed in as values. -/
def serveSetup (fileExists : Bool) (removeResult bindResult : Except String Unit) :
    Except String Unit :=
  match (if fileExists then removeResult else Except.ok ()) with
  | .error e => Except.error e
  | .ok _ => bindResult

/-- Does this event accept connection i? -/
def isAccept (i : Nat) : Ev → Bool
  | .accept j => i == j
  | _ => false

/-- Does this event write the response of connection i? -/
def isRespond (i : Nat) : Ev → Bool
  | .respond j _ => i == j
  | _ => false

/-! Helper lemmas about the framers. -/

set_option maxHeartbeats 1600000 in
/-- Processing a fully valid chunk first leaves the validator back in
its initial state: validity of s ++ t from state exp reduces to
validity of t whenever s is valid from exp. -/
theorem utf8ValidAux_append (s : List Nat) :
    ∀ (exp : List (Nat × Nat)) (t : List Nat), utf8ValidAux exp s = true →
      utf8ValidAux exp (s ++ t) = utf8ValidAux [] t := by
  induction s with
  | nil =>
    intro exp t h
    cases exp with
    | nil => simp
    | cons p exp2 => simp [utf8ValidAux] at h
  | cons b rest ih =>
    intro exp t h
    cases exp with
    | cons p exp2 =>
      obtain ⟨lo, hi⟩ := p
      simp only [List.cons_append, utf8ValidAux] at h ⊢
      split_ifs at h ⊢
      exact ih _ t h
    | nil =>
      simp only [List.cons_append, utf8ValidAux] at h ⊢
      split_ifs at h ⊢ <;> exact ih _ t h

/-- Appending a newline byte keeps a byte list valid UTF-8. -/
theorem utf8Valid_append_newline (s : List Nat) (hv : utf8Valid s = true) :
    utf8Valid (s ++ [10]) = true := by
  unfold utf8Valid at hv ⊢
  rw [utf8ValidAux_append s [] [10] hv]
  rfl

/-- Without a newline byte, read_line consumes the whole stream. -/
theorem takeLine_eq_self (s : List Nat) (h : 10 ∉ s) : takeLine s = s := by
  induction s with
  | nil => rfl
  | cons b rest ih =>
    simp only [List.mem_cons, not_or] at h
    simp only [takeLine]
    rw [if_neg fun hb => h.1 hb.symm, ih h.2]

/-- With a single newline at the end, read_line consumes exactly the
whole stream, newline included. -/
theorem takeLine_concat_newline (s : List Nat) (h : 10 ∉ s) :
    takeLine (s ++ [10]) = s ++ [10] := by
  induction s with
  | nil => rfl
  | cons b rest ih =>
    simp only [List.mem_cons, not_or] at h
    simp only [List.cons_append, takeLine, List.append_eq]
    rw [if_neg fun hb => h.1 hb.symm, ih h.2]

/-- Popping the trailing newline undoes appending one. -/
theorem chomp_concat (s : List Nat) : chomp (s ++ [10]) = s := by
  simp [chomp, List.getLast?_concat, List.dropLast_concat]

/-- A list without the newline byte cannot end with it. -/
theorem getLast?_ne_newline (s : List Nat) (h : 10 ∉ s) : s.getLast? ≠ some 10 := by
  intro hlast
  have hmem : (10 : Nat) ∈ s.getLast? := Option.mem_def.mpr hlast
  obtain ⟨hne, heq⟩ := List.mem_getLast?_eq_getLast hmem
  exact h (heq ▸ List.getLast_mem hne)

/-- The newline strip is the identity on newline-free lists. -/
theorem chomp_of_no_newline (s : List Nat) (h : 10 ∉ s) : chomp s = s := by
  unfold chomp
  rw [if_neg (getLast?_ne_newline s h)]

/-- read_line on a newline-terminated valid-UTF-8 line returns the
line without its newline. -/
theorem readLineWire_concat_newline (s : List Nat) (hv : utf8Valid s = true)
    (h : 10 ∉ s) : readLineWire (s ++ [10]) = Except.ok s := by
  simp only [readLineWire, takeLine_concat_newline s h,
    utf8Valid_append_newline s hv, if_true, chomp_concat]

/-- read_line on a newline-free valid-UTF-8 stream returns the whole
stream once end-of-stream is reached. -/
theorem readLineWire_no_newline (s : List Nat) (hv : utf8Valid s = true)
    (h : 10 ∉ s) : readLineWire s = Except.ok s := by
  simp only [readLineWire, takeLine_eq_self s h, hv, if_true, chomp_of_no_newline s h]

/-- On a newline-free message, send_string appends exactly one
newline. -/
theorem sendStringWire_no_newline (s : List Nat) (h : 10 ∉ s) :
    sendStringWire s = s ++ [10] := by
  simp only [sendStringWire]
  rw [if_neg (getLast?_ne_newline s h)]

/-- On a message already ending in a newline, send_string adds
nothing. -/
theorem sendStringWire_concat_newline (s : List Nat) :
    sendStringWire (s ++ [10]) = s ++ [10] := by
  simp [sendStringWire, List.getLast?_concat]

/-- Decoding the four big-endian bytes produced by the as-u32 cast
recovers the length reduced modulo 2^32. -/
theorem fromBE4_toBE4 (n : Nat) :
    fromBE4 (n % 2 ^ 32 / 2 ^ 24) (n % 2 ^ 32 / 2 ^ 16 % 2 ^ 8)
      (n % 2 ^ 32 / 2 ^ 8 % 2 ^ 8) (n % 2 ^ 32 % 2 ^ 8) = n % 2 ^ 32 := by
  unfold fromBE4
  omega

/-! Helper lemmas about the serve loop trace. -/

/-- Every event the loop body produces for incoming item i carries
connection index i. -/
theorem evIdx_of_mem_connTrace (reader handler : List Nat → Except String (List Nat))
    (i : Nat) (c : Incoming) (e : Ev) (h : e ∈ connTrace reader handler i c) :
    evIdx e = i := by
  cases c with
  | acceptErr =>
    simp only [connTrace, List.mem_singleton] at h
    subst h; rfl
  | conn s =>
    rcases hr : reader s with e1 | msg
    · simp only [connTrace, hr, List.mem_cons, List.mem_singleton,
        List.not_mem_nil, or_false] at h
      rcases h with h | h <;> (subst h; rfl)
    · rcases hh : handler msg with e2 | r <;>
        · simp only [connTrace, hr, hh, List.mem_cons, List.mem_singleton,
            List.not_mem_nil, or_false] at h
          rcases h with h | h | h | h <;> (subst h; rfl)

/-- Events in the trace of the first n loop iterations belong to
connections with index below n. -/
theorem evIdx_of_mem_serveTraceN (reader handler : List Nat → Except String (List Nat))
    (inc : Nat → Incoming) (n : Nat) (e : Ev)
    (h : e ∈ serveTraceN reader handler inc n) : evIdx e < n := by
  induction n with
  | zero => simp [serveTraceN] at h
  | succ k ih =>
    simp only [serveTraceN, List.mem_append] at h
    rcases h with h | h
    · exact Nat.lt_succ_of_lt (ih h)
    · rw [evIdx_of_mem_connTrace _ _ _ _ _ h]
      exact Nat.lt_succ_self k

/-- The loop body always produces at least one event (an accept or an
accept failure). -/
theorem connTrace_ne_nil (reader handler : List Nat → Except String (List Nat))
    (i : Nat) (c : Incoming) : connTrace reader handler i c ≠ [] := by
  cases c with
  | acceptErr => simp [connTrace]
  | conn s => simp [connTrace]

/-! The claims. -/

/-- Claim C1, refuted as stated: in SockMonitor::serve no per-connection
unit of concurrency is spawned; the loop body handles the accepted
connection inline, so the accept of connection 1 occurs strictly after
the response write of connection 0, never concurrently with it.  Here
both connections carry the line "h", the reader is read_line and the
handler echoes the request. -/
theorem claim_C1_counterexample :
    serveTraceN readLineWire (fun m => Except.ok m) (fun _ => Incoming.conn [104, 10]) 2 =
      [Ev.accept 0, Ev.readOk 0 [104], Ev.handle 0 [104], Ev.respond 0 [104],
       Ev.accept 1, Ev.readOk 1 [104], Ev.handle 1 [104], Ev.respond 1 [104]] ∧
    ¬ ((serveTraceN readLineWire (fun m => Except.ok m) (fun _ => Incoming.conn [104, 10]) 2).findIdx
          (isAccept 1) <
        (serveTraceN readLineWire (fun m => Except.ok m) (fun _ => Incoming.conn [104, 10]) 2).findIdx
          (isRespond 0)) := by
  exact ⟨by decide, by decide⟩

/-- Claim C1, amended: connections are handled sequentially, not
concurrently.  serve handles each accepted connection inline on the
accept loop itself, completing its framing, handler invocation and
response write before the next accept, so in the trace of serve the
connection indices of events are monotone: no event of a later
connection ever precedes an event of an earlier one. -/
theorem claim_C1_sequential_handling
    (reader handler : List Nat → Except String (List Nat))
    (inc : Nat → Incoming) (n : Nat) :
    (serveTraceN reader handler inc n).Pairwise (fun a b => evIdx a ≤ evIdx b) := by
  induction n with
  | zero => simp [serveTraceN]
  | succ k ih =>
    rw [serveTraceN]
    refine List.pairwise_append.mpr ⟨ih, ?_, ?_⟩
    · refine List.pairwise_of_forall_mem_list ?_
      intro a ha b hb
      rw [evIdx_of_mem_connTrace _ _ _ _ _ ha, evIdx_of_mem_connTrace _ _ _ _ _ hb]
    · intro a ha b hb
      rw [evIdx_of_mem_connTrace _ _ _ _ _ hb]
      exact le_of_lt (evIdx_of_mem_serveTraceN _ _ _ _ _ ha)

/-- Claim C2: for every newline-free string s (a valid-UTF-8 byte
list without the byte 10), the bytes send_string writes for s and for
s ++ newline are both framed by read_line into exactly s, with no
trailing newline. -/
theorem claim_C2_line_roundtrip (s : List Nat) (hv : utf8Valid s = true)
    (hnl : 10 ∉ s) :
    readLineWire (sendStringWire s) = Except.ok s ∧
    readLineWire (sendStringWire (s ++ [10])) = Except.ok s := by
  constructor
  · rw [sendStringWire_no_newline s hnl]
    exact readLineWire_concat_newline s hv hnl
  · rw [sendStringWire_concat_newline s]
    exact readLineWire_concat_newline s hv hnl

/-- Witness for C2 at s = "hi" ([104, 105]). -/
theorem claim_C2_line_roundtrip_witness :
    (utf8Valid [104, 105] = true ∧ (10 : Nat) ∉ [104, 105]) ∧
    readLineWire (sendStringWire [104, 105]) = Except.ok [104, 105] ∧
    readLineWire (sendStringWire ([104, 105] ++ [10])) = Except.ok [104, 105] :=
  ⟨⟨by decide, by decide⟩, claim_C2_line_roundtrip [104, 105] (by decide) (by decide)⟩

/-- Claim C3: for every valid-UTF-8 payload p of length below 2^32,
the bytes send_bytes writes (a 4-byte big-endian length followed by p)
are framed by read_bytes into exactly p, the text the handler
receives. -/
theorem claim_C3_bytes_roundtrip (p : List Nat) (hlen : p.length < 2 ^ 32)
    (hv : utf8Valid p = true) :
    readBytesWire (sendBytesWire p) = Except.ok p := by
  simp only [sendBytesWire, toBE4, List.cons_append, List.nil_append, readBytesWire]
  rw [fromBE4_toBE4, Nat.mod_eq_of_lt hlen]
  simp [List.take_length, hv]

/-- Witness for C3 at p = "hi" ([104, 105]). -/
theorem claim_C3_bytes_roundtrip_witness :
    ([104, 105] : List Nat).length < 2 ^ 32 ∧ utf8Valid [104, 105] = true ∧
    readBytesWire (sendBytesWire [104, 105]) = Except.ok [104, 105] :=
  ⟨by decide, by decide, claim_C3_bytes_roundtrip [104, 105] (by decide) (by decide)⟩

/-- Claim C4: on a successfully framed request, a handler failure
makes serve write exactly the three bytes "ERR" ([69, 82, 82]) as the
whole response, so the client's read-to-end yields exactly "ERR". -/
theorem claim_C4_handler_error_sentinel
    (reader handler : List Nat → Except String (List Nat)) (i : Nat)
    (bytes msg : List Nat) (e : String)
    (hr : reader bytes = Except.ok msg) (hh : handler msg = Except.error e) :
    connTrace reader handler i (Incoming.conn bytes) =
      [Ev.accept i, Ev.readOk i msg, Ev.handle i msg, Ev.respond i (asciiBytes "ERR")] ∧
    asciiBytes "ERR" = [69, 82, 82] ∧
    clientReadToEnd (asciiBytes "ERR") = Except.ok (asciiBytes "ERR") := by
  refine ⟨?_, by decide, rfl⟩
  simp [connTrace, hr, hh]

/-- Witness for C4: read_line frames "h" and the handler always
fails. -/
theorem claim_C4_handler_error_sentinel_witness :
    readLineWire [104, 10] = Except.ok [104] ∧
    connTrace readLineWire (fun _ => Except.error "boom") 0 (Incoming.conn [104, 10]) =
      [Ev.accept 0, Ev.readOk 0 [104], Ev.handle 0 [104], Ev.respond 0 (asciiBytes "ERR")] ∧
    asciiBytes "ERR" = [69, 82, 82] ∧
    clientReadToEnd (asciiBytes "ERR") = Except.ok (asciiBytes "ERR") :=
  ⟨rfl, claim_C4_handler_error_sentinel readLineWire (fun _ => Except.error "boom")
    0 [104, 10] [104] "boom" rfl rfl⟩

/-- Claim C5: on a successfully framed request, a handler success r
makes serve write exactly the bytes of r, with no added terminator, as
the whole response, so the client's read-to-end yields exactly r. -/
theorem claim_C5_handler_success_response
    (reader handler : List Nat → Except String (List Nat)) (i : Nat)
    (bytes msg resp : List Nat)
    (hr : reader bytes = Except.ok msg) (hh : handler msg = Except.ok resp)
    (hv : utf8Valid resp = true) :
    connTrace reader handler i (Incoming.conn bytes) =
      [Ev.accept i, Ev.readOk i msg, Ev.handle i msg, Ev.respond i resp] ∧
    clientReadToEnd resp = Except.ok resp := by
  refine ⟨by simp [connTrace, hr, hh], ?_⟩
  simp [clientReadToEnd, hv]

/-- Witness for C5: read_line frames "h" and the handler answers
"OK" ([79, 75]). -/
theorem claim_C5_handler_success_response_witness :
    readLineWire [104, 10] = Except.ok [104] ∧ utf8Valid [79, 75] = true ∧
    connTrace readLineWire (fun _ => Except.ok [79, 75]) 0 (Incoming.conn [104, 10]) =
      [Ev.accept 0, Ev.readOk 0 [104], Ev.handle 0 [104], Ev.respond 0 [79, 75]] ∧
    clientReadToEnd [79, 75] = Except.ok [79, 75] :=
  ⟨rfl, by decide, claim_C5_handler_success_response readLineWire (fun _ => Except.ok [79, 75])
    0 [104, 10] [104] [79, 75] rfl rfl (by decide)⟩

/-- Claim C6: when the framer fails on connection i, serve logs and
abandons that connection: the handler is never invoked for it, no
response is ever written on it, and the accept loop still reaches the
next incoming item instead of returning or crashing. -/
theorem claim_C6_framing_error_isolation
    (reader handler : List Nat → Except String (List Nat)) (i : Nat)
    (bytes : List Nat) (e : String) (inc : Nat → Incoming)
    (hr : reader bytes = Except.error e) (hinc : inc i = Incoming.conn bytes) :
    connTrace reader handler i (Incoming.conn bytes) = [Ev.accept i, Ev.readErr i] ∧
    (∀ m, Ev.handle i m ∉ serveTraceN reader handler inc (i + 2)) ∧
    (∀ b, Ev.respond i b ∉ serveTraceN reader handler inc (i + 2)) ∧
    (Ev.accept (i + 1) ∈ serveTraceN reader handler inc (i + 2) ∨
      Ev.acceptFail (i + 1) ∈ serveTraceN reader handler inc (i + 2)) := by
  have htrace : connTrace reader handler i (Incoming.conn bytes) =
      [Ev.accept i, Ev.readErr i] := by simp [connTrace, hr]
  have hsplit2 : serveTraceN reader handler inc (i + 2) =
      (serveTraceN reader handler inc i ++ connTrace reader handler i (inc i)) ++
        connTrace reader handler (i + 1) (inc (i + 1)) := rfl
  refine ⟨htrace, ?_, ?_, ?_⟩
  · intro m hm
    rw [hsplit2] at hm
    rcases List.mem_append.mp hm with hm | hm
    · rcases List.mem_append.mp hm with hm | hm
      · have := evIdx_of_mem_serveTraceN _ _ _ _ _ hm
        simp [evIdx] at this
      · rw [hinc, htrace] at hm
        simp at hm
    · have := evIdx_of_mem_connTrace _ _ _ _ _ hm
      simp [evIdx] at this
  · intro b hb
    rw [hsplit2] at hb
    rcases List.mem_append.mp hb with hb | hb
    · rcases List.mem_append.mp hb with hb | hb
      · have := evIdx_of_mem_serveTraceN _ _ _ _ _ hb
        simp [evIdx] at this
      · rw [hinc, htrace] at hb
        simp at hb
    · have := evIdx_of_mem_connTrace _ _ _ _ _ hb
      simp [evIdx] at this
  · cases hcase : inc (i + 1) with
    | acceptErr =>
      right
      rw [hsplit2, hcase]
      exact List.mem_append_right _ (by simp [connTrace])
    | conn s =>
      left
      rw [hsplit2, hcase]
      exact List.mem_append_right _ (by simp [connTrace])

/-- Witness for C6: a length-prefixed stream that closes after two
bytes (before the 4-byte length arrives) makes read_bytes fail;
connection 0 gets no handler call and no response, and connection 1 is
still accepted. -/
theorem claim_C6_framing_error_isolation_witness :
    readBytesWire [0, 0] = Except.error "failed to fill whole buffer" ∧
    connTrace readBytesWire (fun m => Except.ok m) 0 (Incoming.conn [0, 0]) =
      [Ev.accept 0, Ev.readErr 0] ∧
    (∀ m, Ev.handle 0 m ∉
      serveTraceN readBytesWire (fun m => Except.ok m) (fun _ => Incoming.conn [0, 0]) 2) ∧
    (∀ b, Ev.respond 0 b ∉
      serveTraceN readBytesWire (fun m => Except.ok m) (fun _ => Incoming.conn [0, 0]) 2) ∧
    (Ev.accept 1 ∈
        serveTraceN readBytesWire (fun m => Except.ok m) (fun _ => Incoming.conn [0, 0]) 2 ∨
      Ev.acceptFail 1 ∈
        serveTraceN readBytesWire (fun m => Except.ok m) (fun _ => Incoming.conn [0, 0]) 2) :=
  ⟨rfl, claim_C6_framing_error_isolation readBytesWire (fun m => Except.ok m) 0 [0, 0]
    "failed to fill whole buffer" (fun _ => Incoming.conn [0, 0]) rfl rfl⟩

/-- Claim C7: serve can fail only before the accept loop, from the
stale-file removal or the bind; once the loop runs, every iteration
adds events and the loop goes on to the next incoming item for every
n, whatever per-connection or accept failures occur, so serve never
returns Ok (the Ok(()) after the for loop is unreachable because
listener.incoming() never ends). -/
theorem claim_C7_serve_never_returns_ok :
    (∀ (fileExists : Bool) (rr br : Except String Unit) (e : String),
        serveSetup fileExists rr br = Except.error e →
          rr = Except.error e ∨ br = Except.error e) ∧
    (∀ (reader handler : List Nat → Except String (List Nat))
        (inc : Nat → Incoming) (n : Nat),
        (serveTraceN reader handler inc n).length <
          (serveTraceN reader handler inc (n + 1)).length) := by
  constructor
  · intro fe rr br e h
    cases fe with
    | false =>
      simp only [serveSetup, if_false] at h
      exact Or.inr h
    | true =>
      simp only [serveSetup, if_true] at h
      cases rr with
      | error e2 =>
        simp only at h
        exact Or.inl (by rw [h])
      | ok u =>
        exact Or.inr h
  · intro reader handler inc n
    have hne := connTrace_ne_nil reader handler n (inc n)
    have hpos : 0 < (connTrace reader handler n (inc n)).length :=
      List.length_pos.mpr hne
    rw [serveTraceN, List.length_append]
    omega

/-- Witness for C7: a failing removal surfaces as serve's error, and
iteration 0 to 1 of the loop adds the events of connection 0. -/
theorem claim_C7_serve_never_returns_ok_witness :
    ((Except.error "rm" : Except String Unit) = Except.error "rm" ∨
      (Except.ok () : Except String Unit) = Except.error "rm") ∧
    (serveTraceN readLineWire (fun m => Except.ok m) (fun _ => Incoming.acceptErr) 0).length <
      (serveTraceN readLineWire (fun m => Except.ok m) (fun _ => Incoming.acceptErr) 1).length :=
  ⟨claim_C7_serve_never_returns_ok.1 true (Except.error "rm") (Except.ok ()) "rm" rfl,
    claim_C7_serve_never_returns_ok.2 readLineWire (fun m => Except.ok m)
      (fun _ => Incoming.acceptErr) 0⟩

/-- Claim C8: before binding, serve removes a pre-existing file at the
endpoint: when a file exists, a removal failure is returned as serve's
own error (bind is not reached), a successful removal hands over to
bind (a stale socket file does not block a new server), and when no
file exists the outcome is the bind result alone. -/
theorem claim_C8_stale_socket_cleanup :
    (∀ (e : String) (br : Except String Unit),
        serveSetup true (Except.error e) br = Except.error e) ∧
    (∀ br : Except String Unit, serveSetup true (Except.ok ()) br = br) ∧
    (∀ (rr br : Except String Unit), serveSetup false rr br = br) :=
  ⟨fun _ _ => rfl, fun _ => rfl, fun _ _ => rfl⟩

/-- Claim C9, refuted as stated: read_line does not return Ok on every
stream that reaches end-of-stream before a newline; the byte 255 alone
is not valid UTF-8, and BufRead::read_line fails on it even though the
underlying reads all succeed. -/
theorem claim_C9_counterexample :
    (10 : Nat) ∉ [(255 : Nat)] ∧ readLineWire [255] ≠ Except.ok [255] := by
  refine ⟨by decide, fun h => ?_⟩
  rw [show readLineWire [255] =
    Except.error "stream did not contain valid UTF-8" from rfl] at h
  exact Except.noConfusion h

/-- Claim C9, amended: read_line returns Err only when the underlying
read fails or the bytes read are not valid UTF-8; for every valid-UTF-8
stream that reaches end-of-stream before any newline it returns Ok
with exactly the bytes read so far, and it strips a trailing newline
only when one is present. -/
theorem claim_C9_eof_yields_bytes (s : List Nat) (hv : utf8Valid s = true)
    (hnl : 10 ∉ s) :
    readLineWire s = Except.ok s ∧ readLineWire (s ++ [10]) = Except.ok s :=
  ⟨readLineWire_no_newline s hv hnl, readLineWire_concat_newline s hv hnl⟩

/-- Witness for the amended C9 at s = "h" ([104]). -/
theorem claim_C9_eof_yields_bytes_witness :
    (utf8Valid [104] = true ∧ (10 : Nat) ∉ [(104 : Nat)]) ∧
    readLineWire [104] = Except.ok [104] ∧
    readLineWire ([104] ++ [10]) = Except.ok [104] :=
  ⟨⟨by decide, by decide⟩, claim_C9_eof_yields_bytes [104] (by decide) (by decide)⟩

/-- Claim C10: send_bytes computes the 4-byte prefix from the length
cast to u32, so for a payload of length at least 2^32 the written
stream is still the 4 prefix bytes followed by all payload bytes, but
the big-endian value of the prefix is the length mod 2^32, which no
longer equals the payload length. -/
theorem claim_C10_length_cast_mod (p : List Nat) (hlen : 2 ^ 32 ≤ p.length) :
    ∃ b0 b1 b2 b3, sendBytesWire p = b0 :: b1 :: b2 :: b3 :: p ∧
      fromBE4 b0 b1 b2 b3 = p.length % 2 ^ 32 ∧
      p.length % 2 ^ 32 ≠ p.length := by
  refine ⟨_, _, _, _, ?_, fromBE4_toBE4 p.length, ?_⟩
  · simp [sendBytesWire, toBE4]
  · have hlt : p.length % 2 ^ 32 < 2 ^ 32 := Nat.mod_lt _ (by norm_num)
    omega

/-- Witness for C10: a payload of exactly 2^32 zero bytes. -/
theorem claim_C10_length_cast_mod_witness :
    2 ^ 32 ≤ (List.replicate (2 ^ 32) (0 : Nat)).length ∧
    ∃ b0 b1 b2 b3,
      sendBytesWire (List.replicate (2 ^ 32) (0 : Nat)) =
        b0 :: b1 :: b2 :: b3 :: List.replicate (2 ^ 32) (0 : Nat) ∧
      fromBE4 b0 b1 b2 b3 = (List.replicate (2 ^ 32) (0 : Nat)).length % 2 ^ 32 ∧
      (List.replicate (2 ^ 32) (0 : Nat)).length % 2 ^ 32 ≠
        (List.replicate (2 ^ 32) (0 : Nat)).length :=
  ⟨by rw [List.length_replicate], claim_C10_length_cast_mod (List.replicate (2 ^ 32) 0)
    (by rw [List.length_replicate])⟩

end SockMon
